import Mathlib

/-!
# Verification of the light-tracking timer and persistence layer

A shallow embedding of the Go sources of the `light-tracking` desktop
time-tracking application, together with theorems settling the frozen
claims about its specification.

Modelling conventions:

* `time.Time` instants and `time.Duration` values are integers counting
  nanoseconds (Go durations are `int64` nanosecond counts).  Go's
  `int64(d.Seconds())` — a float division by 1e9 followed by a truncating
  cast toward zero — is embedded as exact truncated integer division
  (`Int.tdiv`), abstracting float rounding.
* Each call of `time.Now()` in the Go code becomes one explicit `Int`
  parameter of the embedded function, in source order.
* The SQLite table `time_slots` (internal/app/database.go, initSchema)
  becomes a list of records plus the AUTOINCREMENT counter `nextId`.
  A SQL `UPDATE ... WHERE id = ?` that matches no row succeeds without
  error, exactly as in SQLite; a `QueryRow(...).Scan` with no row yields
  `sql.ErrNoRows`, embedded as an `Except.error`.
* `sync.RWMutex` and the `notifyChannel` are concurrency plumbing with no
  effect on the sequential semantics of any single call and are omitted.
* Local-calendar arithmetic: both `GetTimeSlotsByDate` and
  `GetTaskStatistics` compute the identical expression
  `time.Date(y, m, d, 0, 0, 0, 0, date.Location())` for their date
  argument and add `24 * time.Hour`.  A date is therefore embedded as the
  instant of its local midnight (`LocalDate.startOfDayNs`), and the shared
  day window is `[startOfDayNs, startOfDayNs + dayNs)`.
-/

/-- Nanoseconds per second (`time.Second` in Go). -/
def nsPerSecond : Int := 1000000000

/-- Go's `int64(d.Seconds())` for a `time.Duration` of `d` nanoseconds:
truncation toward zero of `d / 1e9`. -/
def durSeconds (d : Int) : Int := Int.tdiv d nsPerSecond

/-- Nanoseconds per day (`24 * time.Hour`). -/
def dayNs : Int := 86400 * nsPerSecond

/-- `models.TimeSlot` (internal/models): id, task name, start instant,
optional end instant, stored duration in whole seconds. -/
structure TimeSlot where
  ID : Nat
  TaskName : String
  StartTime : Int
  EndTime : Option Int
  DurationSeconds : Int
deriving Repr, DecidableEq

/-- `TimeSlot.IsActive`: a slot is active when it has no end time. -/
def TimeSlot.IsActive (ts : TimeSlot) : Bool := ts.EndTime.isNone

/-- The `time_slots` table: stored rows plus the AUTOINCREMENT counter. -/
structure Database where
  slots : List TimeSlot
  nextId : Nat
deriving Repr, DecidableEq

/-- `Database.CreateTimeSlot`: `INSERT INTO time_slots (task_name,
start_time) VALUES (?, ?)`; `end_time` is NULL and `duration_seconds`
defaults to 0.  Returns the freshly built in-memory record
`&TimeSlot{ID: id, TaskName: taskName, StartTime: startTime}`. -/
def Database.CreateTimeSlot (db : Database) (taskName : String)
    (startTime : Int) : TimeSlot × Database :=
  let slot : TimeSlot :=
    { ID := db.nextId, TaskName := taskName, StartTime := startTime,
      EndTime := none, DurationSeconds := 0 }
  (slot, { slots := db.slots ++ [slot], nextId := db.nextId + 1 })

/-- Row lookup by primary key (`WHERE id = ?` on the unique-key column). -/
def Database.FindSlot (db : Database) (id : Nat) : Option TimeSlot :=
  db.slots.find? (fun s => s.ID == id)

/-- Accumulator for `ORDER BY start_time DESC LIMIT 1`: keep the row with
the larger start time. -/
def pickNewer (acc : Option TimeSlot) (s : TimeSlot) : Option TimeSlot :=
  match acc with
  | none => some s
  | some b => if b.StartTime < s.StartTime then some s else some b

/-- `Database.GetActiveTimeSlot`: `SELECT ... WHERE end_time IS NULL ORDER
BY start_time DESC LIMIT 1`; `sql.ErrNoRows` becomes `none`. -/
def Database.GetActiveTimeSlot (db : Database) : Option TimeSlot :=
  (db.slots.filter (fun s => s.IsActive)).foldl pickNewer none

/-- `Database.StopTimeSlot`: first `SELECT start_time ... WHERE id = ?`
(failing when the row is absent), then `UPDATE time_slots SET end_time =
?, duration_seconds = ? WHERE id = ?` with the duration computed from the
looked-up start time. -/
def Database.StopTimeSlot (db : Database) (id : Nat) (endTime : Int) :
    Except String Database :=
  match db.FindSlot id with
  | none => .error "failed to get start time"
  | some s =>
    let durationSeconds := durSeconds (endTime - s.StartTime)
    .ok { slots := db.slots.map (fun u =>
            if u.ID == id then
              { u with EndTime := some endTime,
                       DurationSeconds := durationSeconds }
            else u),
          nextId := db.nextId }

/-- `Database.UpdateTimeSlot`: computes `duration_seconds` (0 when
`endTime` is nil) and runs `UPDATE time_slots SET task_name = ?,
start_time = ?, end_time = ?, duration_seconds = ? WHERE id = ?`.  Note:
the Go code performs no validation and the UPDATE succeeds even when no
row matches. -/
def Database.UpdateTimeSlot (db : Database) (id : Nat) (taskName : String)
    (startTime : Int) (endTime : Option Int) : Except String Database :=
  let durationSeconds : Int :=
    match endTime with
    | some e => durSeconds (e - startTime)
    | none => 0
  .ok { slots := db.slots.map (fun u =>
          if u.ID == id then
            { u with TaskName := taskName, StartTime := startTime,
                     EndTime := endTime,
                     DurationSeconds := durationSeconds }
          else u),
        nextId := db.nextId }

/-- The record stored for id `s0.ID` after a successful
`UpdateTimeSlot(id, name, s, e)`: all four mutable fields overwritten,
`duration_seconds` recomputed exactly as the Go code does. -/
def updRecord (s0 : TimeSlot) (name : String) (s : Int)
    (e : Option Int) : TimeSlot :=
  { ID := s0.ID, TaskName := name, StartTime := s, EndTime := e,
    DurationSeconds :=
      match e with
      | some e1 => durSeconds (e1 - s)
      | none => 0 }

/-- A calendar date, embedded as the instant of its local midnight: the
value `time.Date(date.Year(), date.Month(), date.Day(), 0, 0, 0, 0,
date.Location())` that both day-scoped queries compute. -/
structure LocalDate where
  startOfDayNs : Int
deriving Repr, DecidableEq

/-- Membership of an instant in a date's half-open local day window
`startOfDay <= t < startOfDay + 24h`. -/
def inDayWindow (d : LocalDate) (t : Int) : Bool :=
  decide (d.startOfDayNs ≤ t) && decide (t < d.startOfDayNs + dayNs)

/-- `Database.GetTimeSlotsByDate`: `SELECT ... WHERE start_time >= ? AND
start_time < ? ORDER BY start_time ASC` over the day window. -/
def Database.GetTimeSlotsByDate (db : Database) (d : LocalDate) :
    List TimeSlot :=
  (db.slots.filter (fun s => inDayWindow d s.StartTime)).mergeSort
    (fun a b => decide (a.StartTime ≤ b.StartTime))

/-- First occurrences of each name, used to model the distinct grouping
keys produced by SQL `GROUP BY task_name`. -/
def distinctNames : List String → List String
  | [] => []
  | n :: ns => n :: (distinctNames ns).filter (fun m => !(m == n))

/-- The result set of `SELECT task_name, SUM(duration_seconds) ... WHERE
start_time >= ? AND start_time < ? AND end_time IS NOT NULL GROUP BY
task_name`: one row per distinct task name among the closed slots of the
day window, carrying the sum of their durations. -/
def Database.StatsRows (db : Database) (d : LocalDate) :
    List (String × Int) :=
  let rows := db.slots.filter
    (fun s => inDayWindow d s.StartTime && !s.IsActive)
  (distinctNames (rows.map (fun s => s.TaskName))).map
    (fun n => (n, ((rows.filter (fun s => s.TaskName == n)).map
                    (fun s => s.DurationSeconds)).sum))

/-- `Database.GetTaskStatistics` read at one key: the Go function builds
`map[string]int64` from the grouped rows; indexing a Go map at an absent
key yields the zero value 0. -/
def Database.GetTaskStatistics (db : Database) (d : LocalDate)
    (taskName : String) : Int :=
  ((db.StatsRows d).lookup taskName).getD 0

/-- The in-memory `Timer` (internal/app, timer source): cached active
slot, running flag, start instant of the current run.  The mutex and the
notification channel carry no sequential meaning and are omitted. -/
structure Timer where
  activeSlot : Option TimeSlot
  isRunning : Bool
  startTime : Int
deriving Repr, DecidableEq

/-- `NewTimer()`: Go zero values — nil slot, false, zero time. -/
def NewTimer : Timer :=
  { activeSlot := none, isRunning := false, startTime := 0 }

/-- The implicit stop at the head of `Timer.Start` (lines 29–35): if the
cached slot exists and is active, close it in the store at the first
`time.Now()` reading; otherwise leave the store untouched. -/
def Timer.ImplicitStop (t : Timer) (db : Database) (nowStop : Int) :
    Except String Database :=
  match t.activeSlot with
  | some a => if a.IsActive then db.StopTimeSlot a.ID nowStop else .ok db
  | none => .ok db

/-- `Timer.Start`: implicit stop of the cached active slot (aborting on
error), then a second `time.Now()` reading, creation of the new slot, and
the transition to running.  `nowStop` and `nowCreate` are the two
distinct `time.Now()` calls, in source order. -/
def Timer.Start (t : Timer) (db : Database) (taskName : String)
    (nowStop nowCreate : Int) :
    Except String (TimeSlot × Timer × Database) :=
  match t.ImplicitStop db nowStop with
  | .error e => .error e
  | .ok db1 =>
    let p := db1.CreateTimeSlot taskName nowCreate
    .ok (p.1,
         { activeSlot := some p.1, isRunning := true,
           startTime := nowCreate },
         p.2)

/-- `Timer.Stop`: no-op returning `nil, nil` when no cached active slot;
otherwise close the slot in the store at `now`, clear the cached slot and
the running flag, and return the (unmodified in-memory) stopped slot. -/
def Timer.Stop (t : Timer) (db : Database) (now : Int) :
    Except String (Option TimeSlot × Timer × Database) :=
  match t.activeSlot with
  | none => .ok (none, t, db)
  | some a =>
    if a.IsActive then
      match db.StopTimeSlot a.ID now with
      | .error e => .error e
      | .ok db1 =>
        .ok (some a,
             { activeSlot := none, isRunning := false,
               startTime := t.startTime },
             db1)
    else .ok (none, t, db)

/-- `Timer.GetElapsedTime`: zero when not running or no cached slot, else
`time.Since(t.startTime)`, i.e. `now - startTime` nanoseconds. -/
def Timer.GetElapsedTime (t : Timer) (now : Int) : Int :=
  if !t.isRunning || t.activeSlot.isNone then 0 else now - t.startTime

/-- `Timer.LoadActiveSlot`: query the store's active slot; if present,
transition to running with the slot's persisted start time as the start
instant, else clear the slot and the flag (the Go error branch only
propagates a store I/O failure, which the embedded query cannot
produce). -/
def Timer.LoadActiveSlot (t : Timer) (db : Database) : Timer :=
  match db.GetActiveTimeSlot with
  | some slot =>
    { activeSlot := some slot, isRunning := true,
      startTime := slot.StartTime }
  | none =>
    { activeSlot := none, isRunning := false, startTime := t.startTime }

/-- `App.StartTimer`: returns `nil, nil` for the empty task name without
touching timer or store, else delegates to `Timer.Start`. -/
def App.StartTimer (taskName : String) (t : Timer) (db : Database)
    (nowStop nowCreate : Int) :
    Except String (Option TimeSlot × Timer × Database) :=
  if taskName = "" then .ok (none, t, db)
  else
    match t.Start db taskName nowStop nowCreate with
    | .error e => .error e
    | .ok (s, t1, db1) => .ok (some s, t1, db1)

/-- `App.GetElapsedTime`: `int64(timer.GetElapsedTime().Seconds())`. -/
def App.GetElapsedTime (t : Timer) (now : Int) : Int :=
  durSeconds (t.GetElapsedTime now)

/-- One user-level timer operation with its wall-clock readings. -/
inductive TimerOp where
  | start (taskName : String) (nowStop nowCreate : Int)
  | stop (now : Int)
deriving Repr, DecidableEq

/-- Apply one operation to the timer/store pair.  A call that returns an
error leaves both unchanged, exactly as the Go methods return before any
mutation on every error path. -/
def ApplyOp (op : TimerOp) (s : Timer × Database) : Timer × Database :=
  match op with
  | .start name n1 n2 =>
    match s.1.Start s.2 name n1 n2 with
    | .error _ => s
    | .ok (_, t1, db1) => (t1, db1)
  | .stop n =>
    match s.1.Stop s.2 n with
    | .error _ => s
    | .ok (_, t1, db1) => (t1, db1)

/-- Run a sequence of start/stop operations from a state. -/
def RunOps (ops : List TimerOp) (s : Timer × Database) : Timer × Database :=
  ops.foldl (fun s op => ApplyOp op s) s

/-- Number of stored rows with absent `end_time`. -/
def ActiveCount (db : Database) : Nat :=
  (db.slots.filter (fun s => s.IsActive)).length

/-- The specification's central store invariant. -/
def AtMostOneActive (db : Database) : Prop := ActiveCount db ≤ 1

/-- Store well-formedness maintained by the AUTOINCREMENT key: distinct
ids, all below the counter. -/
def Database.WF (db : Database) : Prop :=
  db.slots.Pairwise (fun a b => a.ID ≠ b.ID) ∧
    ∀ s ∈ db.slots, s.ID < db.nextId

/-- Timer/store coherence: every active stored row is the one the timer
caches (same id, cached copy still active). -/
def Coherent (t : Timer) (db : Database) : Prop :=
  ∀ s ∈ db.slots, s.IsActive = true →
    ∃ a, t.activeSlot = some a ∧ a.IsActive = true ∧ a.ID = s.ID

/-! ## Helper lemmas for the at-most-one-active invariant -/

theorem WF_map (db : Database) (f : TimeSlot → TimeSlot)
    (hf : ∀ u, (f u).ID = u.ID) (hwf : db.WF) :
    Database.WF { slots := db.slots.map f, nextId := db.nextId } := by
  constructor
  · refine List.pairwise_map.mpr (hwf.1.imp ?_)
    intro a b hab
    rw [hf, hf]
    exact hab
  · intro s hs
    rcases List.mem_map.mp hs with ⟨u, hu, rfl⟩
    rw [hf]
    exact hwf.2 u hu

theorem WF_CreateTimeSlot (db : Database) (name : String) (st : Int)
    (hwf : db.WF) : (db.CreateTimeSlot name st).2.WF := by
  constructor
  · refine List.pairwise_append.mpr ⟨hwf.1, List.pairwise_singleton _ _, ?_⟩
    intro a ha b hb
    have hb' : b = { ID := db.nextId, TaskName := name, StartTime := st,
                     EndTime := none, DurationSeconds := 0 } := by
      simpa [Database.CreateTimeSlot] using hb
    have hbid : b.ID = db.nextId := by rw [hb']
    have := hwf.2 a ha
    omega
  · intro s hs
    rcases List.mem_append.mp hs with h | h
    · have := hwf.2 s h
      simp only [Database.CreateTimeSlot]
      omega
    · have hs' : s = { ID := db.nextId, TaskName := name, StartTime := st,
                       EndTime := none, DurationSeconds := 0 } := by
        simpa using h
      have hsid : s.ID = db.nextId := by rw [hs']
      simp only [Database.CreateTimeSlot, hsid]
      omega

theorem WF_StopTimeSlot (db : Database) (id : Nat) (now : Int)
    (db1 : Database) (hwf : db.WF)
    (h : db.StopTimeSlot id now = .ok db1) : db1.WF := by
  unfold Database.StopTimeSlot at h
  cases hfind : db.FindSlot id <;> rw [hfind] at h
  · cases h
  · injection h with h
    subst h
    exact WF_map db _ (fun u => by cases hid : u.ID == id <;> simp [hid]) hwf

/-- After a successful `StopTimeSlot` of the cached active slot, no stored
row is active (uses coherence: every active row carried the cached id). -/
theorem StopTimeSlot_no_active (t : Timer) (db : Database) (a : TimeSlot)
    (now : Int) (db1 : Database)
    (hco : Coherent t db) (hact : t.activeSlot = some a)
    (h : db.StopTimeSlot a.ID now = .ok db1) :
    ∀ s ∈ db1.slots, s.IsActive = false := by
  unfold Database.StopTimeSlot at h
  cases hfind : db.FindSlot a.ID <;> rw [hfind] at h
  · cases h
  · injection h with h
    subst h
    intro s hs
    rcases List.mem_map.mp hs with ⟨u, hu, rfl⟩
    by_cases hid : (u.ID == a.ID) = true
    · simp [hid, TimeSlot.IsActive]
    · cases hua : u.IsActive with
      | false => simpa [hid] using hua
      | true =>
        exfalso
        obtain ⟨c, hc, hcact, hcid⟩ := hco u hu hua
        rw [hact] at hc
        injection hc with hc
        subst hc
        exact hid (beq_iff_eq.mpr hcid.symm)

theorem ImplicitStop_eq_none (t : Timer) (db : Database) (n : Int)
    (h : t.activeSlot = none) : t.ImplicitStop db n = .ok db := by
  unfold Timer.ImplicitStop
  rw [h]

theorem ImplicitStop_eq_some (t : Timer) (db : Database) (n : Int)
    (a : TimeSlot) (h : t.activeSlot = some a) :
    t.ImplicitStop db n =
      if a.IsActive then db.StopTimeSlot a.ID n else .ok db := by
  unfold Timer.ImplicitStop
  rw [h]

theorem ImplicitStop_no_active (t : Timer) (db : Database) (n : Int)
    (db1 : Database) (hco : Coherent t db)
    (h : t.ImplicitStop db n = .ok db1) :
    ∀ s ∈ db1.slots, s.IsActive = false := by
  cases hact : t.activeSlot with
  | none =>
    rw [ImplicitStop_eq_none t db n hact] at h
    injection h with h
    subst h
    intro s hs
    cases hsa : s.IsActive with
    | false => rfl
    | true =>
      exfalso
      obtain ⟨c, hc, _, _⟩ := hco s hs hsa
      rw [hact] at hc
      cases hc
  | some a =>
    rw [ImplicitStop_eq_some t db n a hact] at h
    cases haa : a.IsActive with
    | false =>
      rw [haa] at h
      simp only [Bool.false_eq_true, if_false] at h
      injection h with h
      subst h
      intro s hs
      cases hsa : s.IsActive with
      | false => rfl
      | true =>
        exfalso
        obtain ⟨c, hc, hcact, _⟩ := hco s hs hsa
        rw [hact] at hc
        injection hc with hc
        subst hc
        rw [haa] at hcact
        exact Bool.noConfusion hcact
    | true =>
      rw [haa] at h
      simp only [if_true] at h
      exact StopTimeSlot_no_active t db a n db1 hco hact h

theorem WF_ImplicitStop (t : Timer) (db : Database) (n : Int)
    (db1 : Database) (hwf : db.WF)
    (h : t.ImplicitStop db n = .ok db1) : db1.WF := by
  cases hact : t.activeSlot with
  | none =>
    rw [ImplicitStop_eq_none t db n hact] at h
    injection h with h
    subst h
    exact hwf
  | some a =>
    rw [ImplicitStop_eq_some t db n a hact] at h
    cases haa : a.IsActive with
    | false =>
      rw [haa] at h
      simp only [Bool.false_eq_true, if_false] at h
      injection h with h
      subst h
      exact hwf
    | true =>
      rw [haa] at h
      simp only [if_true] at h
      exact WF_StopTimeSlot db a.ID n db1 hwf h

/-! ## Reduction equations for `Timer.Start` and `Timer.Stop` -/

theorem Start_eq_error (t : Timer) (db : Database) (name : String)
    (n1 n2 : Int) (e : String) (h : t.ImplicitStop db n1 = .error e) :
    t.Start db name n1 n2 = .error e := by
  unfold Timer.Start
  rw [h]

theorem Start_eq_ok (t : Timer) (db : Database) (name : String)
    (n1 n2 : Int) (db1 : Database) (h : t.ImplicitStop db n1 = .ok db1) :
    t.Start db name n1 n2 =
      .ok ((db1.CreateTimeSlot name n2).1,
           { activeSlot := some (db1.CreateTimeSlot name n2).1,
             isRunning := true, startTime := n2 },
           (db1.CreateTimeSlot name n2).2) := by
  unfold Timer.Start
  rw [h]

theorem Stop_eq_none (t : Timer) (db : Database) (now : Int)
    (h : t.activeSlot = none) : t.Stop db now = .ok (none, t, db) := by
  unfold Timer.Stop
  rw [h]

theorem Stop_eq_some (t : Timer) (db : Database) (now : Int)
    (a : TimeSlot) (hact : t.activeSlot = some a) :
    t.Stop db now =
      if a.IsActive then
        match db.StopTimeSlot a.ID now with
        | .error e => .error e
        | .ok db1 =>
          .ok (some a,
               { activeSlot := none, isRunning := false,
                 startTime := t.startTime },
               db1)
      else .ok (none, t, db) := by
  unfold Timer.Stop
  rw [hact]

theorem Stop_eq_closed (t : Timer) (db : Database) (now : Int)
    (a : TimeSlot) (hact : t.activeSlot = some a)
    (haa : a.IsActive = false) : t.Stop db now = .ok (none, t, db) := by
  rw [Stop_eq_some t db now a hact, haa]
  simp

theorem Stop_eq_error (t : Timer) (db : Database) (now : Int)
    (a : TimeSlot) (e : String) (hact : t.activeSlot = some a)
    (haa : a.IsActive = true) (h : db.StopTimeSlot a.ID now = .error e) :
    t.Stop db now = .error e := by
  rw [Stop_eq_some t db now a hact, haa, if_pos rfl, h]

theorem Stop_eq_ok (t : Timer) (db : Database) (now : Int)
    (a : TimeSlot) (db1 : Database) (hact : t.activeSlot = some a)
    (haa : a.IsActive = true) (h : db.StopTimeSlot a.ID now = .ok db1) :
    t.Stop db now =
      .ok (some a,
           { activeSlot := none, isRunning := false,
             startTime := t.startTime },
           db1) := by
  rw [Stop_eq_some t db now a hact, haa, if_pos rfl, h]

/-! ## Preservation of the invariant by every operation -/

theorem ApplyOp_preserves (op : TimerOp) (t : Timer) (db : Database)
    (hwf : db.WF) (hco : Coherent t db) :
    (ApplyOp op (t, db)).2.WF ∧
      Coherent (ApplyOp op (t, db)).1 (ApplyOp op (t, db)).2 := by
  cases op with
  | start name n1 n2 =>
    cases him : t.ImplicitStop db n1 with
    | error e =>
      simp only [ApplyOp, Start_eq_error t db name n1 n2 e him]
      exact ⟨hwf, hco⟩
    | ok db1 =>
      have hwf1 : db1.WF := WF_ImplicitStop t db n1 db1 hwf him
      have hnone := ImplicitStop_no_active t db n1 db1 hco him
      simp only [ApplyOp, Start_eq_ok t db name n1 n2 db1 him]
      constructor
      · exact WF_CreateTimeSlot db1 name n2 hwf1
      · intro s hs hsa
        refine ⟨(db1.CreateTimeSlot name n2).1, rfl, rfl, ?_⟩
        simp only [Database.CreateTimeSlot] at hs
        rcases List.mem_append.mp hs with h | h
        · rw [hnone s h] at hsa
          exact Bool.noConfusion hsa
        · have : s = { ID := db1.nextId, TaskName := name,
                       StartTime := n2, EndTime := none,
                       DurationSeconds := 0 } := by simpa using h
          rw [this]
          rfl
  | stop n =>
    cases hact : t.activeSlot with
    | none =>
      simp only [ApplyOp, Stop_eq_none t db n hact]
      exact ⟨hwf, hco⟩
    | some a =>
      cases haa : a.IsActive with
      | false =>
        simp only [ApplyOp, Stop_eq_closed t db n a hact haa]
        exact ⟨hwf, hco⟩
      | true =>
        cases hsts : db.StopTimeSlot a.ID n with
        | error e =>
          simp only [ApplyOp, Stop_eq_error t db n a e hact haa hsts]
          exact ⟨hwf, hco⟩
        | ok db1 =>
          simp only [ApplyOp, Stop_eq_ok t db n a db1 hact haa hsts]
          refine ⟨WF_StopTimeSlot db a.ID n db1 hwf hsts, ?_⟩
          intro s hs hsa
          rw [StopTimeSlot_no_active t db a n db1 hco hact hsts s hs]
            at hsa
          exact Bool.noConfusion hsa

theorem RunOps_preserves (ops : List TimerOp) :
    ∀ (t : Timer) (db : Database), db.WF → Coherent t db →
      (RunOps ops (t, db)).2.WF ∧
        Coherent (RunOps ops (t, db)).1 (RunOps ops (t, db)).2 := by
  induction ops with
  | nil =>
    intro t db hwf hco
    exact ⟨hwf, hco⟩
  | cons op ops ih =>
    intro t db hwf hco
    have h := ApplyOp_preserves op t db hwf hco
    have hrun : RunOps (op :: ops) (t, db) =
        RunOps ops (ApplyOp op (t, db)) := rfl
    cases hA : ApplyOp op (t, db) with
    | mk t1 db1 =>
      rw [hA] at h
      rw [hrun, hA]
      exact ih t1 db1 h.1 h.2

/-! ## Recovery establishes coherence -/

theorem foldl_pickNewer_some (l : List TimeSlot) (b : TimeSlot) :
    ∃ g, l.foldl pickNewer (some b) = some g := by
  induction l generalizing b with
  | nil => exact ⟨b, rfl⟩
  | cons s l ih =>
    simp only [List.foldl_cons, pickNewer]
    by_cases h : b.StartTime < s.StartTime
    · simpa [h] using ih s
    · simpa [h] using ih b

theorem foldl_pickNewer_mem (l : List TimeSlot) :
    ∀ (acc : Option TimeSlot) (g : TimeSlot),
      l.foldl pickNewer acc = some g → g ∈ l ∨ acc = some g := by
  induction l with
  | nil =>
    intro acc g h
    exact Or.inr h
  | cons s l ih =>
    intro acc g h
    simp only [List.foldl_cons] at h
    rcases ih (pickNewer acc s) g h with hm | he
    · exact Or.inl (List.mem_cons_of_mem _ hm)
    · unfold pickNewer at he
      cases acc with
      | none =>
        injection he with he
        cases he
        exact Or.inl (List.mem_cons_self _ _)
      | some b =>
        have he' : (if b.StartTime < s.StartTime then some s else some b) =
            some g := he
        by_cases hlt : b.StartTime < s.StartTime
        · rw [if_pos hlt] at he'
          injection he' with he'
          cases he'
          exact Or.inl (List.mem_cons_self _ _)
        · rw [if_neg hlt] at he'
          exact Or.inr he'

theorem GetActiveTimeSlot_mem (db : Database) (g : TimeSlot)
    (h : db.GetActiveTimeSlot = some g) :
    g ∈ db.slots ∧ g.IsActive = true := by
  unfold Database.GetActiveTimeSlot at h
  rcases foldl_pickNewer_mem _ _ _ h with hm | he
  · exact List.mem_filter.mp hm
  · exact Option.noConfusion he

theorem GetActiveTimeSlot_none (db : Database)
    (h : db.GetActiveTimeSlot = none) :
    ∀ s ∈ db.slots, s.IsActive = false := by
  intro s hs
  cases hsa : s.IsActive with
  | false => rfl
  | true =>
    exfalso
    have hmem : s ∈ db.slots.filter (fun s => s.IsActive) :=
      List.mem_filter.mpr ⟨hs, hsa⟩
    unfold Database.GetActiveTimeSlot at h
    cases hl : db.slots.filter (fun s => s.IsActive) with
    | nil =>
      rw [hl] at hmem
      cases hmem
    | cons x xs =>
      rw [hl] at h
      simp only [List.foldl_cons, pickNewer] at h
      obtain ⟨g, hg⟩ := foldl_pickNewer_some xs x
      rw [hg] at h
      exact Option.noConfusion h

theorem LoadActiveSlot_coherent (t : Timer) (db : Database)
    (h1 : AtMostOneActive db) : Coherent (t.LoadActiveSlot db) db := by
  intro s hs hsa
  unfold Timer.LoadActiveSlot
  cases hget : db.GetActiveTimeSlot with
  | none =>
    rw [GetActiveTimeSlot_none db hget s hs] at hsa
    exact Bool.noConfusion hsa
  | some g =>
    refine ⟨g, rfl, (GetActiveTimeSlot_mem db g hget).2, ?_⟩
    have hgm : g ∈ db.slots.filter (fun s => s.IsActive) :=
      List.mem_filter.mpr ⟨(GetActiveTimeSlot_mem db g hget).1,
                           (GetActiveTimeSlot_mem db g hget).2⟩
    have hsm : s ∈ db.slots.filter (fun s => s.IsActive) :=
      List.mem_filter.mpr ⟨hs, hsa⟩
    unfold AtMostOneActive ActiveCount at h1
    cases hl : db.slots.filter (fun s => s.IsActive) with
    | nil =>
      rw [hl] at hsm
      cases hsm
    | cons x xs =>
      cases xs with
      | nil =>
        rw [hl] at hgm hsm
        have hg : g = x := by simpa using hgm
        have hst : s = x := by simpa using hsm
        rw [hg, hst]
      | cons y ys =>
        rw [hl] at h1
        simp at h1

/-- Coherence plus key uniqueness gives the store invariant. -/
theorem coherent_atMostOne (t : Timer) (db : Database)
    (hwf : db.WF) (hco : Coherent t db) : AtMostOneActive db := by
  unfold AtMostOneActive ActiveCount
  have hpw := hwf.1.filter (fun s => s.IsActive)
  cases hl : db.slots.filter (fun s => s.IsActive) with
  | nil => simp
  | cons x xs =>
    cases xs with
    | nil => simp
    | cons y ys =>
      exfalso
      rw [hl] at hpw
      have hx : x ∈ db.slots ∧ x.IsActive = true := by
        refine List.mem_filter.mp ?_
        rw [hl]
        exact List.mem_cons_self _ _
      have hy : y ∈ db.slots ∧ y.IsActive = true := by
        refine List.mem_filter.mp ?_
        rw [hl]
        exact List.mem_cons_of_mem x (List.mem_cons_self _ _)
      obtain ⟨c1, hc1, _, hid1⟩ := hco x hx.1 hx.2
      obtain ⟨c2, hc2, _, hid2⟩ := hco y hy.1 hy.2
      rw [hc1] at hc2
      injection hc2 with hc2
      subst hc2
      have hne : x.ID ≠ y.ID :=
        (List.pairwise_cons.mp hpw).1 y (List.mem_cons_self _ _)
      exact hne (hid1.symm.trans hid2)

/-! ## Claims -/

/-- C1: For every sequence of `Timer.Start` and `Timer.Stop` calls
executed from a program-initial state — a fresh `NewTimer` that has run
`LoadActiveSlot`, as `NewApp` always does before any start/stop — over a
well-formed store holding at most one TimeSlot with absent end_time, at
most one TimeSlot is active at every point: Start force-closes the
cached active slot via StopTimeSlot before creating the new slot.
Quantifying over all operation lists covers every intermediate point of
any longer sequence. -/
theorem C1_at_most_one_active (db : Database) (ops : List TimerOp)
    (hwf : db.WF) (h1 : AtMostOneActive db) :
    AtMostOneActive (RunOps ops (NewTimer.LoadActiveSlot db, db)).2 := by
  have hco := LoadActiveSlot_coherent NewTimer db h1
  have h := RunOps_preserves ops (NewTimer.LoadActiveSlot db) db hwf hco
  exact coherent_atMostOne _ _ h.1 h.2

theorem C1_witness :
    Database.WF ⟨[⟨1, "a", 0, none, 0⟩], 2⟩ ∧
    AtMostOneActive ⟨[⟨1, "a", 0, none, 0⟩], 2⟩ ∧
    AtMostOneActive (RunOps [TimerOp.start "B" 5 6, TimerOp.stop 9]
      (NewTimer.LoadActiveSlot ⟨[⟨1, "a", 0, none, 0⟩], 2⟩,
       ⟨[⟨1, "a", 0, none, 0⟩], 2⟩)).2 := by
  refine ⟨?wf, ?one, C1_at_most_one_active _ _ ?wf ?one⟩
  case wf =>
    refine ⟨List.pairwise_singleton _ _, ?_⟩
    decide
  case one =>
    unfold AtMostOneActive ActiveCount
    decide

/-- C5: if, during `Timer.Start` while a slot is cached as active, the
implicit `StopTimeSlot` call fails, then `Start` returns that very error
without creating a new slot, and both the timer state and the store are
left unchanged — the prior slot remains the running one. -/
theorem C5_implicit_stop_failure_aborts (t : Timer) (db : Database)
    (name : String) (n1 n2 : Int) (a : TimeSlot) (e : String)
    (hact : t.activeSlot = some a) (haa : a.IsActive = true)
    (herr : db.StopTimeSlot a.ID n1 = .error e) :
    t.Start db name n1 n2 = .error e ∧
      ApplyOp (.start name n1 n2) (t, db) = (t, db) := by
  have him : t.ImplicitStop db n1 = .error e := by
    rw [ImplicitStop_eq_some t db n1 a hact, haa, if_pos rfl, herr]
  exact ⟨Start_eq_error t db name n1 n2 e him,
         by simp only [ApplyOp, Start_eq_error t db name n1 n2 e him]⟩

theorem C5_witness :
    (⟨some ⟨7, "x", 0, none, 0⟩, true, 0⟩ : Timer).activeSlot =
      some ⟨7, "x", 0, none, 0⟩ ∧
    TimeSlot.IsActive ⟨7, "x", 0, none, 0⟩ = true ∧
    Database.StopTimeSlot ⟨[], 1⟩ 7 5 = .error "failed to get start time" ∧
    (⟨some ⟨7, "x", 0, none, 0⟩, true, 0⟩ : Timer).Start ⟨[], 1⟩ "y" 5 6 =
      .error "failed to get start time" ∧
    ApplyOp (.start "y" 5 6)
        ((⟨some ⟨7, "x", 0, none, 0⟩, true, 0⟩ : Timer), ⟨[], 1⟩) =
      ((⟨some ⟨7, "x", 0, none, 0⟩, true, 0⟩ : Timer), ⟨[], 1⟩) :=
  ⟨rfl, rfl, rfl,
   C5_implicit_stop_failure_aborts _ _ "y" 5 6 _ _ rfl rfl rfl⟩

/-- C9: `Timer.Stop` called while the timer is idle (no cached active
slot) returns `nil, nil` — no error, no returned slot — and changes
neither the in-memory timer state nor the store. -/
theorem C9_stop_idle_noop (t : Timer) (db : Database) (now : Int)
    (h : t.activeSlot = none) : t.Stop db now = .ok (none, t, db) := by
  unfold Timer.Stop
  rw [h]

theorem C9_witness :
    NewTimer.activeSlot = none ∧
    Timer.Stop NewTimer ⟨[], 1⟩ 5 = .ok (none, NewTimer, ⟨[], 1⟩) :=
  ⟨rfl, C9_stop_idle_noop NewTimer ⟨[], 1⟩ 5 rfl⟩

/-- C10: `App.StartTimer` with the empty task name returns `nil, nil` —
no slot created, no error — and leaves timer and store untouched. -/
theorem C10_start_empty_name (t : Timer) (db : Database) (n1 n2 : Int) :
    App.StartTimer "" t db n1 n2 = .ok (none, t, db) := by
  unfold App.StartTimer
  rw [if_pos rfl]

/-! ## Store lookups after updates -/

theorem StopTimeSlot_eq_found (db : Database) (id : Nat) (endTime : Int)
    (s0 : TimeSlot) (h : db.FindSlot id = some s0) :
    db.StopTimeSlot id endTime =
      .ok { slots := db.slots.map (fun u =>
              if u.ID == id then
                { u with EndTime := some endTime,
                         DurationSeconds :=
                           durSeconds (endTime - s0.StartTime) }
              else u),
            nextId := db.nextId } := by
  unfold Database.StopTimeSlot
  rw [h]

theorem find?_map_pres (l : List TimeSlot) (id : Nat)
    (f : TimeSlot → TimeSlot) (hf : ∀ u, (f u).ID = u.ID) (s0 : TimeSlot)
    (h : l.find? (fun s => s.ID == id) = some s0) :
    (l.map f).find? (fun s => s.ID == id) = some (f s0) := by
  induction l with
  | nil => cases h
  | cons u l ih =>
    by_cases hu : (u.ID == id) = true
    · rw [List.find?_cons_of_pos l hu] at h
      injection h with h
      subst h
      rw [List.map_cons]
      rw [List.find?_cons_of_pos (l.map f) (by rw [hf]; exact hu)]
    · rw [List.find?_cons_of_neg l hu] at h
      rw [List.map_cons]
      rw [List.find?_cons_of_neg (l.map f) (by rw [hf]; exact hu)]
      exact ih h

/-- C6: after a process restart while a slot with persisted start_time T0
is active (the store's active query returns it), `Timer.LoadActiveSlot`
transitions the timer to Running with start instant T0, and the elapsed
query evaluated at wall-clock time T0+120s returns 120 seconds. -/
theorem C6_recover_elapsed (t : Timer) (db : Database) (g : TimeSlot)
    (T0 : Int) (hget : db.GetActiveTimeSlot = some g)
    (hT0 : g.StartTime = T0) :
    (t.LoadActiveSlot db).isRunning = true ∧
    (t.LoadActiveSlot db).startTime = T0 ∧
    App.GetElapsedTime (t.LoadActiveSlot db) (T0 + 120 * nsPerSecond)
      = 120 := by
  have hload : t.LoadActiveSlot db =
      { activeSlot := some g, isRunning := true,
        startTime := g.StartTime } := by
    unfold Timer.LoadActiveSlot
    rw [hget]
  rw [hload]
  refine ⟨rfl, hT0, ?_⟩
  show durSeconds (T0 + 120 * nsPerSecond - g.StartTime) = 120
  rw [hT0]
  have h1 : T0 + 120 * nsPerSecond - T0 = 120 * nsPerSecond := by ring
  rw [h1]
  decide

theorem C6_witness :
    Database.GetActiveTimeSlot ⟨[⟨1, "a", 50, none, 0⟩], 2⟩ =
      some ⟨1, "a", 50, none, 0⟩ ∧
    TimeSlot.StartTime ⟨1, "a", 50, none, 0⟩ = 50 ∧
    ((NewTimer.LoadActiveSlot ⟨[⟨1, "a", 50, none, 0⟩], 2⟩).isRunning
        = true ∧
     (NewTimer.LoadActiveSlot ⟨[⟨1, "a", 50, none, 0⟩], 2⟩).startTime
        = 50 ∧
     App.GetElapsedTime
        (NewTimer.LoadActiveSlot ⟨[⟨1, "a", 50, none, 0⟩], 2⟩)
        (50 + 120 * nsPerSecond) = 120) :=
  ⟨rfl, rfl, C6_recover_elapsed NewTimer _ _ 50 rfl rfl⟩

/-- C3 counterexample: with slot B (id 1, start 0) running, calling
Start("A") whose two `time.Now()` readings are 100s and 105s closes B at
100s but creates A starting at 105s — the claim's "end_time(B) equals the
instant A is created / A's start_time equals B's end_time" is false: the
code reads the clock once for the implicit stop and again for the
creation. -/
theorem C3_counterexample :
    Timer.Start ⟨some ⟨1, "B", 0, none, 0⟩, true, 0⟩
        ⟨[⟨1, "B", 0, none, 0⟩], 2⟩ "A"
        (100 * nsPerSecond) (105 * nsPerSecond) =
      .ok (⟨2, "A", 105 * nsPerSecond, none, 0⟩,
           ⟨some ⟨2, "A", 105 * nsPerSecond, none, 0⟩, true,
            105 * nsPerSecond⟩,
           ⟨[⟨1, "B", 0, some (100 * nsPerSecond), 100⟩,
             ⟨2, "A", 105 * nsPerSecond, none, 0⟩], 3⟩) ∧
    (105 * nsPerSecond : Int) ≠ 100 * nsPerSecond :=
  ⟨rfl, by decide⟩

/-- C3 amended: Start(A) while Running(B) closes B with end_time equal to
the implicit-stop instant — the first of the two `time.Now()` readings —
which under a monotone clock is at most (but not necessarily equal to)
the instant at which A is created, so there is zero overlap but possibly
a nonzero gap; B's stored duration_seconds is the truncated whole-second
value of end_time(B) − start_time(B). -/
theorem C3_amended (t : Timer) (db : Database) (name : String)
    (n1 n2 : Int) (a s0 : TimeSlot)
    (hact : t.activeSlot = some a) (haa : a.IsActive = true)
    (hfind : db.FindSlot a.ID = some s0) (hmono : n1 ≤ n2) :
    ∃ slot t1 db2,
      t.Start db name n1 n2 = .ok (slot, t1, db2) ∧
      db2.FindSlot a.ID =
        some { s0 with EndTime := some n1,
                       DurationSeconds := durSeconds (n1 - s0.StartTime) } ∧
      slot.StartTime = n2 ∧ slot.EndTime = none ∧ n1 ≤ n2 := by
  have hsts := StopTimeSlot_eq_found db a.ID n1 s0 hfind
  have him : t.ImplicitStop db n1 =
      .ok { slots := db.slots.map (fun u =>
              if u.ID == a.ID then
                { u with EndTime := some n1,
                         DurationSeconds :=
                           durSeconds (n1 - s0.StartTime) }
              else u),
            nextId := db.nextId } := by
    rw [ImplicitStop_eq_some t db n1 a hact, haa, if_pos rfl, hsts]
  refine ⟨_, _, _, Start_eq_ok t db name n1 n2 _ him, ?_, rfl, rfl, hmono⟩
  show Database.FindSlot _ a.ID = _
  unfold Database.FindSlot
  simp only [Database.CreateTimeSlot]
  rw [List.find?_append]
  rw [find?_map_pres db.slots a.ID _
        (fun u => by cases hid : u.ID == a.ID <;> simp [hid]) s0 hfind]
  rw [Option.or_some]
  have hfind' : db.slots.find? (fun s => s.ID == a.ID) = some s0 := hfind
  have hs0 := List.find?_some hfind'
  rw [if_pos hs0]

theorem C3_witness :
    (⟨some ⟨1, "B", 0, none, 0⟩, true, 0⟩ : Timer).activeSlot =
      some ⟨1, "B", 0, none, 0⟩ ∧
    TimeSlot.IsActive ⟨1, "B", 0, none, 0⟩ = true ∧
    Database.FindSlot ⟨[⟨1, "B", 0, none, 0⟩], 2⟩ 1 =
      some ⟨1, "B", 0, none, 0⟩ ∧
    (100 * nsPerSecond : Int) ≤ 105 * nsPerSecond ∧
    (∃ slot t1 db2,
      Timer.Start ⟨some ⟨1, "B", 0, none, 0⟩, true, 0⟩
          ⟨[⟨1, "B", 0, none, 0⟩], 2⟩ "A"
          (100 * nsPerSecond) (105 * nsPerSecond) = .ok (slot, t1, db2) ∧
      db2.FindSlot 1 =
        some ⟨1, "B", 0, some (100 * nsPerSecond), 100⟩ ∧
      slot.StartTime = 105 * nsPerSecond ∧ slot.EndTime = none ∧
      (100 * nsPerSecond : Int) ≤ 105 * nsPerSecond) := by
  refine ⟨rfl, rfl, rfl, by decide, ?_⟩
  have h := C3_amended ⟨some ⟨1, "B", 0, none, 0⟩, true, 0⟩
      ⟨[⟨1, "B", 0, none, 0⟩], 2⟩ "A" (100 * nsPerSecond)
      (105 * nsPerSecond) ⟨1, "B", 0, none, 0⟩ ⟨1, "B", 0, none, 0⟩
      rfl rfl rfl (by decide)
  obtain ⟨slot, t1, db2, h1, h2, h3, h4, h5⟩ := h
  refine ⟨slot, t1, db2, h1, ?_, h3, h4, h5⟩
  rw [h2]
  rfl

/-- C4 counterexample: start("writing") at T0 = 0, stop() at T0+3600s.
The store row is closed with duration 3600, but the TimeSlot value
RETURNED by stop() is the stale cached record: its duration_seconds is 0,
not 3600, and it carries no end_time — `Timer.Stop` returns
`t.activeSlot` without copying the database update back into it. -/
theorem C4_counterexample :
    Timer.Start NewTimer ⟨[], 1⟩ "writing" 0 0 =
      .ok (⟨1, "writing", 0, none, 0⟩,
           ⟨some ⟨1, "writing", 0, none, 0⟩, true, 0⟩,
           ⟨[⟨1, "writing", 0, none, 0⟩], 2⟩) ∧
    Timer.Stop ⟨some ⟨1, "writing", 0, none, 0⟩, true, 0⟩
        ⟨[⟨1, "writing", 0, none, 0⟩], 2⟩ (3600 * nsPerSecond) =
      .ok (some ⟨1, "writing", 0, none, 0⟩,
           ⟨none, false, 0⟩,
           ⟨[⟨1, "writing", 0, some (3600 * nsPerSecond), 3600⟩], 2⟩) ∧
    TimeSlot.DurationSeconds ⟨1, "writing", 0, none, 0⟩ ≠ 3600 ∧
    TimeSlot.EndTime ⟨1, "writing", 0, none, 0⟩ = none :=
  ⟨rfl, rfl, by decide, rfl⟩

/-- C4 amended: in the scenario start("writing") at T0 then stop() at
T0+3600s, the STORE record of the slot is closed with end_time T0+3600
and duration_seconds = 3600; the TimeSlot value returned by stop(),
however, is the unmodified cached record (id, task name, start time) with
end_time absent and duration_seconds 0. -/
theorem C4_amended (T0 : Int) :
    Timer.Start NewTimer ⟨[], 1⟩ "writing" T0 T0 =
      .ok (⟨1, "writing", T0, none, 0⟩,
           ⟨some ⟨1, "writing", T0, none, 0⟩, true, T0⟩,
           ⟨[⟨1, "writing", T0, none, 0⟩], 2⟩) ∧
    Timer.Stop ⟨some ⟨1, "writing", T0, none, 0⟩, true, T0⟩
        ⟨[⟨1, "writing", T0, none, 0⟩], 2⟩ (T0 + 3600 * nsPerSecond) =
      .ok (some ⟨1, "writing", T0, none, 0⟩,
           ⟨none, false, T0⟩,
           ⟨[⟨1, "writing", T0, some (T0 + 3600 * nsPerSecond),
              3600⟩], 2⟩) := by
  refine ⟨rfl, ?_⟩
  have hstep : Timer.Stop ⟨some ⟨1, "writing", T0, none, 0⟩, true, T0⟩
      ⟨[⟨1, "writing", T0, none, 0⟩], 2⟩ (T0 + 3600 * nsPerSecond) =
      .ok (some ⟨1, "writing", T0, none, 0⟩,
           ⟨none, false, T0⟩,
           ⟨[⟨1, "writing", T0, some (T0 + 3600 * nsPerSecond),
              durSeconds (T0 + 3600 * nsPerSecond - T0)⟩], 2⟩) := rfl
  have hd : durSeconds (T0 + 3600 * nsPerSecond - T0) = 3600 := by
    have h1 : T0 + 3600 * nsPerSecond - T0 = 3600 * nsPerSecond := by ring
    rw [h1]
    decide
  rw [hstep, hd]

theorem FindSlot_map_update (db : Database) (id : Nat)
    (g : TimeSlot → TimeSlot) (hg : ∀ u, (g u).ID = u.ID) (s0 : TimeSlot)
    (hfind : db.FindSlot id = some s0) :
    Database.FindSlot
        { slots := db.slots.map (fun u => if u.ID == id then g u else u),
          nextId := db.nextId } id = some (g s0) := by
  unfold Database.FindSlot
  have hfind' : db.slots.find? (fun s1 => s1.ID == id) = some s0 := hfind
  have hs0 := List.find?_some hfind'
  rw [find?_map_pres db.slots id _
        (fun u => by cases hid : u.ID == id <;> simp [hid, hg]) s0 hfind']
  show some (if (s0.ID == id) = true then g s0 else s0) = some (g s0)
  rw [if_pos hs0]

theorem map_update_mem (l : List TimeSlot) (id : Nat)
    (g : TimeSlot → TimeSlot) (s0 : TimeSlot) (h : s0 ∈ l)
    (hs0 : (s0.ID == id) = true) :
    g s0 ∈ l.map (fun u => if u.ID == id then g u else u) := by
  have hm := List.mem_map_of_mem (fun u => if u.ID == id then g u else u) h
  have hm2 : (if (s0.ID == id) = true then g s0 else s0) ∈
      l.map (fun u => if u.ID == id then g u else u) := hm
  rwa [if_pos hs0] at hm2

/-- C2 counterexample: `Database.UpdateTimeSlot` on an existing id with
end_time 500s < start_time 1000s does NOT fail with a ValidationError —
no such error kind exists in the Go backend — and the stored record is
overwritten, with a negative duration_seconds of −500; the only
end>start check lives in the frontend edit modal. -/
theorem C2_counterexample :
    (500 * nsPerSecond : Int) ≤ 1000 * nsPerSecond ∧
    Database.UpdateTimeSlot
        ⟨[⟨1, "a", 1000 * nsPerSecond, some (2000 * nsPerSecond),
           1000⟩], 2⟩
        1 "a" (1000 * nsPerSecond) (some (500 * nsPerSecond)) =
      .ok ⟨[⟨1, "a", 1000 * nsPerSecond, some (500 * nsPerSecond),
            -500⟩], 2⟩ ∧
    (⟨[⟨1, "a", 1000 * nsPerSecond, some (500 * nsPerSecond),
       -500⟩], 2⟩ : Database) ≠
      ⟨[⟨1, "a", 1000 * nsPerSecond, some (2000 * nsPerSecond),
        1000⟩], 2⟩ :=
  ⟨by decide, rfl, by decide⟩

/-- C2 amended: a call to `Database.UpdateTimeSlot` on an existing id
with end_time ≤ start_time succeeds without any error (the backend has
no ValidationError), and the stored record is overwritten with the given
fields and a recomputed duration_seconds = (end − start) in truncated
whole seconds, which is ≤ 0.  The end_time > start_time check exists
only in the frontend `EditTimeSlotModal.handleSave`. -/
theorem C2_update_no_validation (db : Database) (id : Nat)
    (name : String) (s e : Int) (s0 : TimeSlot)
    (hfind : db.FindSlot id = some s0) (hle : e ≤ s) :
    ∃ db1, db.UpdateTimeSlot id name s (some e) = .ok db1 ∧
      db1.FindSlot id = some (updRecord s0 name s (some e)) ∧
      (updRecord s0 name s (some e)).DurationSeconds ≤ 0 := by
  refine ⟨_, rfl, ?_, ?_⟩
  · exact FindSlot_map_update db id
      (fun u => { ID := u.ID, TaskName := name, StartTime := s,
                  EndTime := some e,
                  DurationSeconds := durSeconds (e - s) })
      (fun u => rfl) s0 hfind
  · show durSeconds (e - s) ≤ 0
    unfold durSeconds
    have h1 : e - s = -(s - e) := by ring
    rw [h1, Int.neg_tdiv]
    exact neg_nonpos.mpr (Int.tdiv_nonneg (by omega) (by decide))

theorem C2_witness :
    Database.FindSlot ⟨[⟨1, "a", 0, none, 0⟩], 2⟩ 1 =
      some ⟨1, "a", 0, none, 0⟩ ∧
    (500 * nsPerSecond : Int) ≤ 1000 * nsPerSecond ∧
    (∃ db1, Database.UpdateTimeSlot ⟨[⟨1, "a", 0, none, 0⟩], 2⟩ 1 "b"
        (1000 * nsPerSecond) (some (500 * nsPerSecond)) = .ok db1 ∧
      db1.FindSlot 1 =
        some (updRecord ⟨1, "a", 0, none, 0⟩ "b" (1000 * nsPerSecond)
                (some (500 * nsPerSecond))) ∧
      (updRecord ⟨1, "a", 0, none, 0⟩ "b" (1000 * nsPerSecond)
          (some (500 * nsPerSecond))).DurationSeconds ≤ 0) :=
  ⟨rfl, by decide,
   C2_update_no_validation _ 1 "b" _ _ _ rfl (by decide)⟩

/-- C8: `UpdateTimeSlot(id, name, s, e)` on an existing id followed by
reading that slot back from the store yields exactly (name, s, e) with
duration_seconds recomputed as the truncated whole seconds of e − s when
e is present and 0 when e is absent, regardless of the previously stored
duration; when s lies inside date d's day window the updated record also
appears verbatim in `GetTimeSlotsByDate d`. -/
theorem C8_update_roundtrip (db : Database) (id : Nat) (name : String)
    (s : Int) (e : Option Int) (d : LocalDate) (s0 : TimeSlot)
    (hfind : db.FindSlot id = some s0)
    (hwin : inDayWindow d s = true) :
    ∃ db1, db.UpdateTimeSlot id name s e = .ok db1 ∧
      db1.FindSlot id = some (updRecord s0 name s e) ∧
      updRecord s0 name s e ∈ db1.GetTimeSlotsByDate d := by
  refine ⟨_, rfl, ?_, ?_⟩
  · exact FindSlot_map_update db id
      (fun u => { ID := u.ID, TaskName := name, StartTime := s,
                  EndTime := e,
                  DurationSeconds :=
                    match e with
                    | some e1 => durSeconds (e1 - s)
                    | none => 0 })
      (fun u => rfl) s0 hfind
  · show updRecord s0 name s e ∈ Database.GetTimeSlotsByDate _ d
    unfold Database.GetTimeSlotsByDate
    refine (List.mergeSort_perm _ _).mem_iff.mpr ?_
    refine List.mem_filter.mpr ⟨?_, ?_⟩
    · have hmem : s0 ∈ db.slots := List.mem_of_find?_eq_some hfind
      have hfind' : db.slots.find? (fun s1 => s1.ID == id) = some s0 :=
        hfind
      have hs0 := List.find?_some hfind'
      exact map_update_mem db.slots id
        (fun u => { ID := u.ID, TaskName := name, StartTime := s,
                    EndTime := e,
                    DurationSeconds :=
                      match e with
                      | some e1 => durSeconds (e1 - s)
                      | none => 0 })
        s0 hmem hs0
    · exact hwin

theorem C8_witness :
    Database.FindSlot ⟨[⟨1, "a", 77, some 99, 3⟩], 2⟩ 1 =
      some ⟨1, "a", 77, some 99, 3⟩ ∧
    inDayWindow ⟨0⟩ 5 = true ∧
    (∃ db1, Database.UpdateTimeSlot ⟨[⟨1, "a", 77, some 99, 3⟩], 2⟩ 1
        "b" 5 (some 9) = .ok db1 ∧
      db1.FindSlot 1 = some (updRecord ⟨1, "a", 77, some 99, 3⟩ "b" 5
                               (some 9)) ∧
      updRecord ⟨1, "a", 77, some 99, 3⟩ "b" 5 (some 9) ∈
        db1.GetTimeSlotsByDate ⟨0⟩) :=
  ⟨rfl, by decide,
   C8_update_roundtrip _ 1 "b" 5 (some 9) ⟨0⟩ _ rfl (by decide)⟩

/-! ## Statistics agree with the listing -/

theorem mem_distinctNames (L : List String) (n : String) :
    n ∈ distinctNames L ↔ n ∈ L := by
  induction L with
  | nil => simp [distinctNames]
  | cons m L ih =>
    simp only [distinctNames, List.mem_cons]
    constructor
    · rintro (h | h)
      · exact Or.inl h
      · exact Or.inr (ih.mp (List.mem_filter.mp h).1)
    · rintro (h | h)
      · exact Or.inl h
      · by_cases hm : n = m
        · exact Or.inl hm
        · refine Or.inr (List.mem_filter.mpr ⟨ih.mpr h, ?_⟩)
          simp [hm]

theorem lookup_map_self (K : List String) (g : String → Int)
    (n : String) :
    (K.map (fun m => (m, g m))).lookup n =
      if n ∈ K then some (g n) else none := by
  induction K with
  | nil => simp
  | cons m K ih =>
    by_cases hm : n = m
    · subst hm
      simp [List.lookup_cons]
    · have hbeq : (n == m) = false := by simp [hm]
      simp only [List.map_cons, List.lookup_cons, hbeq]
      rw [ih]
      simp [hm]

theorem lookup_stats_rows (rows : List TimeSlot) (name : String) :
    (((distinctNames (rows.map (fun s => s.TaskName))).map
        (fun n => (n, ((rows.filter (fun s => s.TaskName == n)).map
                        (fun s => s.DurationSeconds)).sum))).lookup
      name).getD 0 =
      ((rows.filter (fun s => s.TaskName == name)).map
        (fun s => s.DurationSeconds)).sum := by
  rw [lookup_map_self (distinctNames (rows.map (fun s => s.TaskName)))
        (fun n => ((rows.filter (fun s => s.TaskName == n)).map
                    (fun s => s.DurationSeconds)).sum) name]
  by_cases hmem : name ∈ distinctNames (rows.map (fun s => s.TaskName))
  · rw [if_pos hmem]
    rfl
  · rw [if_neg hmem]
    have hnot : name ∉ rows.map (fun s => s.TaskName) :=
      fun h => hmem ((mem_distinctNames _ _).mpr h)
    have hfil : rows.filter (fun s => s.TaskName == name) = [] := by
      rw [List.filter_eq_nil_iff]
      intro s hs hcon
      apply hnot
      have heq : s.TaskName = name := by simpa using hcon
      exact heq ▸ List.mem_map_of_mem _ hs
    rw [hfil]
    rfl

theorem GetTaskStatistics_eq_sum (db : Database) (d : LocalDate)
    (name : String) :
    db.GetTaskStatistics d name =
      (((db.slots.filter (fun s => inDayWindow d s.StartTime &&
          !s.IsActive)).filter (fun s => s.TaskName == name)).map
        (fun s => s.DurationSeconds)).sum := by
  unfold Database.GetTaskStatistics Database.StatsRows
  exact lookup_stats_rows
    (db.slots.filter (fun s => inDayWindow d s.StartTime && !s.IsActive))
    name

/-- C7: for every date d, `GetTaskStatistics d` excludes every active
slot (absent end_time), and for each task name equals the sum of
duration_seconds over the closed slots of that name appearing in
`GetTimeSlotsByDate d` — both queries filtering by the identical
local-time day window [d 00:00, d+1 00:00). -/
theorem C7_stats_match_listing (db : Database) (d : LocalDate)
    (name : String) :
    db.GetTaskStatistics d name =
      (((db.GetTimeSlotsByDate d).filter
          (fun s => !s.IsActive && s.TaskName == name)).map
        (fun s => s.DurationSeconds)).sum := by
  rw [GetTaskStatistics_eq_sum]
  have hperm : List.Perm
      ((db.GetTimeSlotsByDate d).filter
        (fun s => !s.IsActive && s.TaskName == name))
      ((db.slots.filter (fun s => inDayWindow d s.StartTime)).filter
        (fun s => !s.IsActive && s.TaskName == name)) := by
    unfold Database.GetTimeSlotsByDate
    exact (List.mergeSort_perm _ _).filter _
  rw [(hperm.map (fun s => s.DurationSeconds)).sum_eq]
  rw [List.filter_filter, List.filter_filter]
  have hfc : db.slots.filter
      (fun s => (s.TaskName == name) &&
        (inDayWindow d s.StartTime && !s.IsActive)) =
      db.slots.filter
      (fun s => (!s.IsActive && (s.TaskName == name)) &&
        inDayWindow d s.StartTime) := by
    apply List.filter_congr
    intro x _
    cases h1 : x.IsActive <;> cases h2 : inDayWindow d x.StartTime <;>
      cases h3 : x.TaskName == name <;> simp [h1, h2, h3]
  rw [hfc]
